import Mathlib

/-!
Verification of the PDF-ingestion / RAG career-guidance pipeline.

The definitions below are a shallow embedding of the repository's Python
code: `chunk_text` and `process_pdf_upload` from `src/core/pdf_processor.py`,
`search_user_knowledge` / `career_guidance_rag` helpers from
`src/core/career_engine.py`, `save_conversation` / `save_career_recommendation`
from `src/core/database.py`, and the `/chat/query` endpoint from
`src/router/chat.py`.  Python strings are modelled as `List Char`,
Python slice / `str.rfind` index normalisation is modelled exactly
(negative indices count from the end and are clamped), and the scan loop of
`chunk_text` is given explicit fuel because it is not structurally
terminating.
-/

namespace CareerBot

/-- The six whitespace characters stripped by Python `str.strip()` for the
ASCII texts this system handles. -/
def isPySpace (c : Char) : Bool :=
  c = ' ' || c = '\t' || c = '\n' || c = '\r' || c = '\x0b' || c = '\x0c'

/-- Python `str.strip()`: remove leading and trailing whitespace. -/
def pyStrip (l : List Char) : List Char :=
  ((l.dropWhile isPySpace).reverse.dropWhile isPySpace).reverse

/-- Python index normalisation for slices and `rfind` bounds: a negative
index counts from the end of the string and the result is clamped to
`[0, n]`. -/
def pyNorm (n : Nat) (i : Int) : Nat :=
  if i < 0 then ((n : Int) + i).toNat else min i.toNat n

/-- Python slice `t[s:e]`. -/
def pySlice (t : List Char) (s e : Int) : List Char :=
  (t.take (pyNorm t.length e)).drop (pyNorm t.length s)

/-- Largest index `p` with `lo ≤ p < hi` such that the character at `p`
equals `c`, searching downward from `hi`. -/
def lastIdxOf (t : List Char) (c : Char) (lo : Nat) : Nat → Option Nat
  | 0 => none
  | hi + 1 => if lo ≤ hi ∧ t.getD hi ' ' = c then some hi else lastIdxOf t c lo hi

/-- Python `t.rfind(c, s, e)` for a single-character needle: `-1` when the
character does not occur in the (normalised) range. -/
def pyRfind (t : List Char) (c : Char) (s e : Int) : Int :=
  match lastIdxOf t c (pyNorm t.length s) (pyNorm t.length e) with
  | some p => (p : Int)
  | none => -1

/-- The boundary adjustment of one window of `chunk_text`
(`src/core/pdf_processor.py` lines 57-70): when the raw window does not
reach the end of the text, prefer the last sentence period, then the last
space, else cut at `start + chunk_size`. -/
def chunkEnd (t : List Char) (chunk_size : Nat) (start : Int) : Int :=
  if start + (chunk_size : Int) < (t.length : Int) then
    if pyRfind t '.' start (start + chunk_size) > start then
      pyRfind t '.' start (start + chunk_size) + 1
    else if pyRfind t ' ' start (start + chunk_size) > start then
      pyRfind t ' ' start (start + chunk_size)
    else start + chunk_size
  else start + chunk_size

/-- The `while start < text_length` loop of `chunk_text`
(`src/core/pdf_processor.py` lines 56-78), with explicit fuel: `none`
means the fuel ran out before the loop finished. -/
def chunkLoop (t : List Char) (chunk_size overlap : Nat) :
    Nat → Int → List (List Char) → Option (List (List Char))
  | 0, _, _ => none
  | fuel + 1, start, acc =>
    if start < (t.length : Int) then
      chunkLoop t chunk_size overlap fuel
        (if chunkEnd t chunk_size start < (t.length : Int) then
          chunkEnd t chunk_size start - overlap
        else (t.length : Int))
        (if (pyStrip (pySlice t start (chunkEnd t chunk_size start))).isEmpty then acc
        else acc ++ [pyStrip (pySlice t start (chunkEnd t chunk_size start))])
    else some acc

/-- `chunk_text(text, chunk_size, overlap)` from `src/core/pdf_processor.py`:
empty or whitespace-only input yields `[]` immediately; otherwise the scan
loop runs (with fuel). -/
def chunk_text (t : List Char) (chunk_size overlap : Nat) (fuel : Nat) :
    Option (List (List Char)) :=
  if t.isEmpty || (pyStrip t).isEmpty then some [] else chunkLoop t chunk_size overlap fuel 0 []

/-- A 39-character input on which `chunk_text` with `chunk_size = 10`,
`overlap = 5` diverges: eight letters, a period, then thirty letters. -/
def divergingText : List Char :=
  "aaaaaaaa.".toList ++ List.replicate 30 'b'

theorem chunkLoop_diverging_four (fuel : Nat) :
    ∀ acc, chunkLoop divergingText 10 5 fuel 4 acc = none := by
  induction fuel with
  | zero => intro acc; rfl
  | succ f ih =>
    intro acc
    show chunkLoop divergingText 10 5 f 4 (acc ++ ["aaaa.".toList]) = none
    exact ih (acc ++ ["aaaa.".toList])

/-- Claim C1: the claim asserts that for every text, `chunk_size > 0` and
`overlap < chunk_size`, `chunk_text` terminates with at most
`⌈len / (chunk_size − overlap)⌉` chunks.  The code violates this: on
`divergingText` with `chunk_size = 10`, `overlap = 5` the scan reaches
`start = 4`, adjusts the window end back to the period at index 8, and
`start = end − overlap = 4` repeats forever, so no amount of fuel makes the
loop return. -/
theorem c1_chunk_text_diverges (fuel : Nat) :
    chunk_text divergingText 10 5 fuel = none := by
  cases fuel with
  | zero => rfl
  | succ f =>
    show chunkLoop divergingText 10 5 (f + 1) 0 [] = none
    show chunkLoop divergingText 10 5 f 4 [[
      'a', 'a', 'a', 'a', 'a', 'a', 'a', 'a', '.']] = none
    exact chunkLoop_diverging_four f _

theorem pyNorm_le (n : Nat) (i : Int) : pyNorm n i ≤ n := by
  unfold pyNorm
  split
  · omega
  · exact min_le_right _ _

theorem lastIdxOf_lt (t : List Char) (c : Char) (lo : Nat) :
    ∀ hi p, lastIdxOf t c lo hi = some p → p < hi := by
  intro hi
  induction hi with
  | zero => intro p h; simp [lastIdxOf] at h
  | succ k ih =>
    intro p h
    unfold lastIdxOf at h
    split at h
    · have := Option.some_inj.mp h
      omega
    · exact Nat.lt_succ_of_lt (ih p h)

theorem pyRfind_lt_normEnd (t : List Char) (c : Char) (s e : Int) :
    pyRfind t c s e < (pyNorm t.length e : Int) := by
  unfold pyRfind
  split
  · next p h => exact_mod_cast lastIdxOf_lt t c _ _ p h
  · omega

theorem pyRfind_neg_one_le (t : List Char) (c : Char) (s e : Int) :
    -1 ≤ pyRfind t c s e := by
  unfold pyRfind
  split
  · omega
  · omega

theorem pySlice_length (t : List Char) (s e : Int) :
    (pySlice t s e).length = pyNorm t.length e - pyNorm t.length s := by
  unfold pySlice
  rw [List.length_drop, List.length_take]
  have := pyNorm_le t.length e
  omega

theorem dropWhile_length_le (p : Char → Bool) (l : List Char) :
    (l.dropWhile p).length ≤ l.length := by
  induction l with
  | nil => simp
  | cons a l ih =>
    rw [List.dropWhile_cons]
    split
    · exact le_trans ih (by simp)
    · simp

theorem pyStrip_length_le (l : List Char) : (pyStrip l).length ≤ l.length := by
  unfold pyStrip
  calc ((l.dropWhile isPySpace).reverse.dropWhile isPySpace).reverse.length
      = ((l.dropWhile isPySpace).reverse.dropWhile isPySpace).length := List.length_reverse _
    _ ≤ (l.dropWhile isPySpace).reverse.length := dropWhile_length_le _ _
    _ = (l.dropWhile isPySpace).length := List.length_reverse _
    _ ≤ l.length := dropWhile_length_le _ _

theorem chunkEnd_bounds (t : List Char) (cs : Nat) (s : Int) (h0 : 0 ≤ s) :
    0 ≤ chunkEnd t cs s ∧ chunkEnd t cs s ≤ s + cs := by
  unfold chunkEnd
  have hraw : (0 : Int) ≤ s + cs := by positivity
  have hnormraw : (pyNorm t.length (s + cs) : Int) ≤ s + cs := by
    unfold pyNorm
    split
    · omega
    · have : (min (s + (cs : Int)).toNat t.length : Int) ≤ ((s + (cs : Int)).toNat : Int) := by
        exact_mod_cast Nat.cast_le.mpr (min_le_left _ _)
      omega
  split
  · split
    · have := pyRfind_lt_normEnd t '.' s (s + cs)
      constructor <;> omega
    · split
      · have := pyRfind_lt_normEnd t ' ' s (s + cs)
        constructor <;> omega
      · exact ⟨hraw, le_refl _⟩
  · exact ⟨hraw, le_refl _⟩

theorem chunkEnd_ge_neg_one (t : List Char) (cs ov : Nat) (s : Int)
    (hov : ov < cs) (hs : -(ov : Int) - 1 ≤ s) : -1 ≤ chunkEnd t cs s := by
  unfold chunkEnd
  have h1 := pyRfind_neg_one_le t '.' s (s + cs)
  have h2 := pyRfind_neg_one_le t ' ' s (s + cs)
  split
  · split
    · omega
    · split
      · omega
      · omega
  · omega

theorem emitted_length_le (t : List Char) (cs ov : Nat) (hov : ov < cs) (s : Int)
    (hs : -(ov : Int) - 1 ≤ s) (hlt : s < (t.length : Int)) :
    (pyStrip (pySlice t s (chunkEnd t cs s))).length ≤ cs := by
  refine le_trans (le_trans (pyStrip_length_le _) (le_of_eq (pySlice_length t s _))) ?_
  rcases lt_or_le s 0 with hneg | hpos
  · have hnorm : pyNorm t.length s = ((t.length : Int) + s).toNat := by
      unfold pyNorm
      rw [if_pos hneg]
    have hle := pyNorm_le t.length (chunkEnd t cs s)
    omega
  · have hnorm : (pyNorm t.length s : Int) = s := by
      unfold pyNorm
      rw [if_neg (by omega)]
      have h1 : (s.toNat : Int) = s := Int.toNat_of_nonneg hpos
      have h2 : s.toNat ≤ t.length := by omega
      omega
    obtain ⟨he0, hecs⟩ := chunkEnd_bounds t cs s hpos
    have hne : (pyNorm t.length (chunkEnd t cs s) : Int) ≤ chunkEnd t cs s := by
      unfold pyNorm
      rw [if_neg (by omega)]
      have : (min (chunkEnd t cs s).toNat t.length : Int) ≤ ((chunkEnd t cs s).toNat : Int) := by
        exact_mod_cast Nat.cast_le.mpr (min_le_left _ _)
      omega
    omega

theorem chunkLoop_length_le (t : List Char) (cs ov : Nat) (hov : ov < cs) :
    ∀ (fuel : Nat) (s : Int) (acc : List (List Char)), -(ov : Int) - 1 ≤ s →
      (∀ c ∈ acc, c.length ≤ cs) →
      ∀ out, chunkLoop t cs ov fuel s acc = some out →
      ∀ c ∈ out, c.length ≤ cs := by
  intro fuel
  induction fuel with
  | zero =>
    intro s acc _ _ out h
    simp [chunkLoop] at h
  | succ f ih =>
    intro s acc hs hacc out h
    rw [chunkLoop] at h
    split at h
    · next hlt =>
      refine ih _ _ ?_ ?_ out h
      · split
        · have := chunkEnd_ge_neg_one t cs ov s hov hs
          omega
        · omega
      · intro c hc
        have hchunk := emitted_length_le t cs ov hov s hs hlt
        split at hc
        · exact hacc c hc
        · rcases List.mem_append.mp hc with hmem | hmem
          · exact hacc c hmem
          · rw [List.mem_singleton.mp hmem]
            exact hchunk
    · exact fun c hc => hacc c ((Option.some_inj.mp h) ▸ hc)

/-- Claim C10: every chunk returned by `chunk_text` (for `chunk_size > 0`,
`overlap < chunk_size`) has length at most `chunk_size`: the boundary
adjustment only ever shrinks a window and trimming only shortens the
emitted chunk. -/
theorem c10_chunk_length_bound (t : List Char) (cs ov fuel : Nat)
    (_hcs : 0 < cs) (hov : ov < cs) (out : List (List Char))
    (h : chunk_text t cs ov fuel = some out) :
    ∀ c ∈ out, c.length ≤ cs := by
  unfold chunk_text at h
  split at h
  · intro c hc
    rw [← Option.some_inj.mp h] at hc
    simp at hc
  · exact chunkLoop_length_le t cs ov hov fuel 0 [] (by omega) (by simp) out h

theorem c10_chunk_length_bound_witness :
    0 < 2 ∧ 1 < 2 ∧ chunk_text "ab".toList 2 1 2 = some ["ab".toList] ∧
      ∀ c ∈ ["ab".toList], c.length ≤ 2 :=
  ⟨by decide, by decide, by decide,
    fun c hc => c10_chunk_length_bound "ab".toList 2 1 2 (by decide) (by decide) _ (by decide) c hc⟩

/-! ### PDF ingestion pipeline (`process_pdf_upload`, `src/core/pdf_processor.py`) -/

/-- Failure modes of `process_pdf_upload`: the two `ValueError`s it raises
itself and a propagated embedding failure. -/
inductive PdfError where
  | extractionError : PdfError
  | emptyDocumentError : PdfError
  | embeddingError : PdfError
deriving DecidableEq

/-- The statistics dictionary returned by a successful `process_pdf_upload`. -/
structure PdfStats where
  filename : String
  chunks_created : Nat
  vectors_inserted : Nat
  text_length : Nat
deriving DecidableEq

/-- `embed_texts_batch` from `src/core/embeddings.py`: one external call per
text, in order, failing fast on the first text that cannot be embedded.
The external embedding service is the `embed` oracle. -/
def embed_texts_batch (embed : List Char → Option (List ℚ)) :
    List (List Char) → Option (List (List ℚ))
  | [] => some []
  | c :: rest =>
    match embed c with
    | none => none
    | some v =>
      match embed_texts_batch embed rest with
      | none => none
      | some vs => some (v :: vs)

/-- `process_pdf_upload` from `src/core/pdf_processor.py` (lines 102-165),
after text extraction: raises when the trimmed text is shorter than 100
characters, chunks it (`chunk_size=1000`, `overlap=200`), raises when no
chunks result, embeds every chunk, inserts all vectors, then records one
upload row.  The result carries the outcome together with the number of
vector-store insertions and of upload-record writes performed; `none`
models the scan loop of `chunk_text` not terminating. -/
def process_pdf_upload (embed : List Char → Option (List ℚ))
    (filename : String) (text : List Char) (fuel : Nat) :
    Option (Except PdfError PdfStats × Nat × Nat) :=
  if text.isEmpty || (pyStrip text).length < 100 then some (.error .extractionError, 0, 0)
  else
    match chunk_text text 1000 200 fuel with
    | none => none
    | some chunks =>
      if chunks.isEmpty then some (.error .emptyDocumentError, 0, 0)
      else
        match embed_texts_batch embed chunks with
        | none => some (.error .embeddingError, 0, 0)
        | some embeddings =>
          some (.ok ⟨filename, chunks.length, embeddings.length, text.length⟩,
            embeddings.length, 1)

/-- Claim C3: if PDF ingestion fails at the extraction step (trimmed text
shorter than 100 characters) or at the embedding step (`embed_texts_batch`
fails for some chunk), then `process_pdf_upload` raises, performs zero
vector-store insertions and writes zero upload records: insertion and
upload bookkeeping happen only after all embeddings succeed. -/
theorem c3_failed_ingestion_no_side_effects (embed : List Char → Option (List ℚ))
    (filename : String) (text : List Char) (fuel : Nat) :
    ((pyStrip text).length < 100 →
      process_pdf_upload embed filename text fuel = some (.error .extractionError, 0, 0))
  ∧ (∀ chunks, chunk_text text 1000 200 fuel = some chunks →
      text.isEmpty = false → 100 ≤ (pyStrip text).length → chunks ≠ [] →
      embed_texts_batch embed chunks = none →
      process_pdf_upload embed filename text fuel = some (.error .embeddingError, 0, 0)) := by
  constructor
  · intro hshort
    unfold process_pdf_upload
    rw [if_pos]
    simp [hshort]
  · intro chunks hchunks hne hlen hnonempty hfail
    unfold process_pdf_upload
    rw [if_neg (by simp [hne]; omega)]
    rw [hchunks]
    simp only [hfail]
    rw [if_neg (by simpa using hnonempty)]

/-- A 100-character text with no period and no space: it chunks into a
single 100-character chunk. -/
def plainText100 : List Char := List.replicate 100 'a'

theorem c3_failed_ingestion_no_side_effects_witness :
    (process_pdf_upload (fun _ => some []) "a.pdf" "hi".toList 3
        = some (.error .extractionError, 0, 0))
  ∧ (process_pdf_upload (fun _ => none) "a.pdf" plainText100 3
        = some (.error .embeddingError, 0, 0)) :=
  ⟨(c3_failed_ingestion_no_side_effects (fun _ => some []) "a.pdf" "hi".toList 3).1
      (by decide),
    (c3_failed_ingestion_no_side_effects (fun _ => none) "a.pdf" plainText100 3).2
      [plainText100] (by decide) (by decide) (by decide) (by decide) (by decide)⟩

/-! ### Vector-store search and tenant scoping (`src/core/career_engine.py`) -/

/-- A Knowledge Record as persisted by `insert_knowledge_chunks`: the
`user_id` / `session_id` fields are the pair under which the record was
inserted. -/
structure KnowledgeRecord where
  user_id : String
  session_id : String
  text : String
  filename : String
  chunk_index : Nat
deriving DecidableEq

/-- The Milvus filter expression built by `search_user_knowledge`
(`src/core/career_engine.py` line 152):
`f'user_id == "{user_id}" && session_id == "{session_id}"'`. -/
def buildSearchExpr (user_id session_id : String) : String :=
  "user_id == \"" ++ user_id ++ "\" && session_id == \"" ++ session_id ++ "\""

/-- Modelled from the spec: the vector store itself (Milvus) is an external
service, so its filter evaluation is not repository code.  Spec section 4.3
describes the filter as exact match on user identifier and session
identifier, and every record is retrievable by the tenant that inserted it;
this is realised by letting a record match a filter expression exactly when
the expression coincides with the one its own (user, session) pair
generates.  For quote-free identifiers this is precisely exact pair
matching (`buildSearchExpr` is then injective, see
`buildSearchExpr_inj_of_quote_free`). -/
def milvusExprMatches (expr : String) (r : KnowledgeRecord) : Bool :=
  expr == buildSearchExpr r.user_id r.session_id

/-- `search_user_knowledge` from `src/core/career_engine.py` (lines
121-174), restricted to its tenant-scoping behaviour: the store rows
matching the interpolated filter expression, at most `limit` of them. -/
def search_user_knowledge (user_id session_id : String)
    (store : List KnowledgeRecord) (limit : Nat) : List KnowledgeRecord :=
  (store.filter fun r => milvusExprMatches (buildSearchExpr user_id session_id) r).take limit

/-- Claim C2 counterexample: the claim asserts cross-tenant isolation for
all identifier strings including ones containing quote or operator
characters.  Because the filter is built by string interpolation, the two
distinct tenant pairs below generate the same filter expression, so the
store cannot distinguish their searches, and a search issued under the
first pair returns the record inserted under the second pair. -/
theorem c2_injection_counterexample :
    (("A\" && session_id == \"B", "C") : String × String)
      ≠ ("A", "B\" && session_id == \"C")
  ∧ buildSearchExpr "A\" && session_id == \"B" "C"
      = buildSearchExpr "A" "B\" && session_id == \"C"
  ∧ search_user_knowledge "A\" && session_id == \"B" "C"
      [⟨"A", "B\" && session_id == \"C", "resume text", "resume.pdf", 0⟩] 5
      = [⟨"A", "B\" && session_id == \"C", "resume text", "resume.pdf", 0⟩] :=
  ⟨by decide, by decide, by decide⟩

theorem append_quote_cancel :
    ∀ (u u' rest rest' : List Char), '"' ∉ u → '"' ∉ u' →
      u ++ '"' :: rest = u' ++ '"' :: rest' → u = u' ∧ rest = rest' := by
  intro u
  induction u with
  | nil =>
    intro u' rest rest' _ hu' h
    cases u' with
    | nil => simpa using h
    | cons c cs =>
      simp only [List.nil_append, List.cons_append, List.cons.injEq] at h
      exact absurd (h.1 ▸ List.mem_cons_self c cs) hu'
  | cons a as ih =>
    intro u' rest rest' hu hu' h
    cases u' with
    | nil =>
      simp only [List.nil_append, List.cons_append, List.cons.injEq] at h
      exact absurd (h.1.symm ▸ List.mem_cons_self a as) hu
    | cons b bs =>
      simp only [List.cons_append, List.cons.injEq] at h
      obtain ⟨hab, htail⟩ := h
      have hrec := ih bs rest rest'
        (fun hmem => hu (List.mem_cons_of_mem a hmem))
        (fun hmem => hu' (List.mem_cons_of_mem b hmem)) htail
      exact ⟨by rw [hab, hrec.1], hrec.2⟩

theorem string_eq_of_data (a b : String) (h : a.data = b.data) : a = b := by
  cases a
  cases b
  exact congrArg String.mk (by simpa using h)

theorem buildSearchExpr_inj_of_quote_free (u1 s1 u2 s2 : String)
    (hu1 : '"' ∉ u1.data) (_hs1 : '"' ∉ s1.data)
    (hu2 : '"' ∉ u2.data) (_hs2 : '"' ∉ s2.data)
    (h : buildSearchExpr u1 s1 = buildSearchExpr u2 s2) : u1 = u2 ∧ s1 = s2 := by
  have hd := congrArg String.data h
  simp only [buildSearchExpr, String.data_append, List.append_assoc] at hd
  have hpre := List.append_cancel_left hd
  have hsplit1 : u1.data ++ '"' :: (" && session_id == \"".data ++ (s1.data ++ "\"".data))
      = u2.data ++ '"' :: (" && session_id == \"".data ++ (s2.data ++ "\"".data)) := hpre
  obtain ⟨hu, hrest⟩ := append_quote_cancel u1.data u2.data _ _ hu1 hu2 hsplit1
  have hmid := List.append_cancel_left hrest
  have hsuffix : s1.data ++ ['"'] = s2.data ++ ['"'] := hmid
  have hs := List.append_cancel_right hsuffix
  exact ⟨string_eq_of_data u1 u2 hu, string_eq_of_data s1 s2 hs⟩

/-- Claim C2, amended: cross-tenant isolation holds for identifier strings
not containing the double-quote character.  For such identifiers the
interpolated filter expression determines the (user, session) pair
uniquely, so a search issued under `(u1, s1)` never returns a knowledge
record that was inserted under a different quote-free pair `(u2, s2)`. -/
theorem c2_quote_free_isolation (u1 s1 u2 s2 : String)
    (hu1 : '"' ∉ u1.data) (hs1 : '"' ∉ s1.data)
    (_hu2 : '"' ∉ u2.data) (_hs2 : '"' ∉ s2.data)
    (hne : (u1, s1) ≠ (u2, s2)) (store : List KnowledgeRecord) (limit : Nat)
    (r : KnowledgeRecord) (hr : r ∈ search_user_knowledge u1 s1 store limit)
    (hrq : '"' ∉ r.user_id.data ∧ '"' ∉ r.session_id.data) :
    ¬(r.user_id = u2 ∧ r.session_id = s2) := by
  intro hcontra
  have hmem := List.mem_of_mem_take hr
  have hmatch := (List.mem_filter.mp hmem).2
  have hexpr : buildSearchExpr u1 s1 = buildSearchExpr r.user_id r.session_id :=
    eq_of_beq hmatch
  have hpair := buildSearchExpr_inj_of_quote_free u1 s1 r.user_id r.session_id
    hu1 hs1 hrq.1 hrq.2 hexpr
  exact hne (by rw [hpair.1, hpair.2, hcontra.1, hcontra.2])

theorem c2_quote_free_isolation_witness :
    ¬((KnowledgeRecord.mk "u" "s" "chunk text" "f.pdf" 0).user_id = "v"
      ∧ (KnowledgeRecord.mk "u" "s" "chunk text" "f.pdf" 0).session_id = "s") :=
  c2_quote_free_isolation "u" "s" "v" "s" (by decide) (by decide) (by decide) (by decide)
    (by decide) [⟨"u", "s", "chunk text", "f.pdf", 0⟩] 5 _ (by decide)
    ⟨by decide, by decide⟩

/-! ### RAG orchestration (`career_guidance_rag`, `src/core/career_engine.py`) -/

/-- A retrieval hit as assembled by `search_user_knowledge` (lines 163-174):
chunk text, source filename, chunk ordinal and similarity score. -/
structure RetrievedChunk where
  text : String
  filename : String
  chunk_index : Nat
  relevance_score : ℚ
deriving DecidableEq

/-- The sentinel context used when retrieval returns no hits
(`src/core/career_engine.py` line 222). -/
def noKnowledgeContext : String :=
  "No specific career knowledge found in your uploaded documents. I\x27ll provide general career guidance."

/-- The context block of the prompt (`src/core/career_engine.py` lines
216-222): the joined hits, or the sentinel when there are none. -/
def buildContext (knowledge_chunks : List RetrievedChunk) : String :=
  if knowledge_chunks.isEmpty then noKnowledgeContext
  else
    String.intercalate "\n\n" (knowledge_chunks.map fun c =>
      "[From " ++ c.filename ++ ", Chunk " ++ toString c.chunk_index ++ "]:\n" ++ c.text)

/-- The average relevance score (`src/core/career_engine.py` line 285):
`sum(...) / len(...) if knowledge_chunks else 0.0`. -/
def confidence_score (knowledge_chunks : List RetrievedChunk) : ℚ :=
  if knowledge_chunks.isEmpty then 0
  else (knowledge_chunks.map RetrievedChunk.relevance_score).sum / (knowledge_chunks.length : ℚ)

/-- Arithmetic mean of a list of scores, as the spec words it. -/
def arithMean (xs : List ℚ) : ℚ := xs.sum / (xs.length : ℚ)

/-- Claim C5: with zero retrieval hits the RAG orchestrator sets
`confidence_score = 0.0` and uses the non-empty "no knowledge found"
sentinel as the context section; with one or more hits `confidence_score`
is the arithmetic mean of the hits' similarity scores. -/
theorem c5_confidence_and_fallback_context (knowledge_chunks : List RetrievedChunk) :
    (knowledge_chunks = [] →
      confidence_score knowledge_chunks = 0
      ∧ buildContext knowledge_chunks = noKnowledgeContext
      ∧ noKnowledgeContext ≠ "")
  ∧ (knowledge_chunks ≠ [] →
      confidence_score knowledge_chunks
        = arithMean (knowledge_chunks.map RetrievedChunk.relevance_score)) := by
  constructor
  · rintro rfl
    exact ⟨rfl, rfl, by decide⟩
  · intro hne
    unfold confidence_score arithMean
    rw [if_neg (by simpa using hne), List.length_map]

theorem c5_confidence_and_fallback_context_witness :
    (confidence_score [] = 0 ∧ buildContext [] = noKnowledgeContext ∧ noKnowledgeContext ≠ "")
  ∧ confidence_score [⟨"t", "f.pdf", 0, 3⟩]
      = arithMean ([(⟨"t", "f.pdf", 0, 3⟩ : RetrievedChunk)].map RetrievedChunk.relevance_score) :=
  ⟨(c5_confidence_and_fallback_context []).1 rfl,
    (c5_confidence_and_fallback_context [⟨"t", "f.pdf", 0, 3⟩]).2 (by simp)⟩

/-! ### Conversation history rendering (`src/core/career_engine.py` lines 234-241) -/

/-- One stored conversation turn, as returned (newest-first) by
`get_conversation_history`. -/
structure ConversationTurn where
  question : String
  answer : String
deriving DecidableEq

/-- The `f"User: {conv.get('question', '')}"` line. -/
def renderUserLine (c : ConversationTurn) : String := "User: " ++ c.question

/-- The `f"Assistant: {conv.get('answer', '')[:200]}..."` line: the answer
truncated to its first 200 characters. -/
def renderAssistantLine (c : ConversationTurn) : String :=
  "Assistant: " ++ String.mk (c.answer.data.take 200) ++ "..."

/-- The `for conv in reversed(recent_history)` loop appending two lines per
turn to `history_parts`. -/
def appendHistoryParts : List ConversationTurn → List String → List String
  | [], acc => acc
  | c :: rest, acc => appendHistoryParts rest (acc ++ [renderUserLine c, renderAssistantLine c])

/-- The history section of the prompt: the loop above run over
`reversed(conversation_history[:3])`. -/
def history_parts (conversation_history : List ConversationTurn) : List String :=
  appendHistoryParts ((conversation_history.take 3).reverse) []

/-- The serialized history block (`"\n".join(history_parts)` guarded by
`if conversation_history:`). -/
def history_text (conversation_history : List ConversationTurn) : String :=
  if conversation_history.isEmpty then ""
  else String.intercalate "\n" (history_parts conversation_history)

theorem appendHistoryParts_eq (l : List ConversationTurn) :
    ∀ acc, appendHistoryParts l acc
      = acc ++ l.flatMap (fun c => [renderUserLine c, renderAssistantLine c]) := by
  induction l with
  | nil => intro acc; simp [appendHistoryParts]
  | cons c rest ih =>
    intro acc
    show appendHistoryParts rest (acc ++ [renderUserLine c, renderAssistantLine c]) = _
    rw [ih]
    simp

theorem twoLine_flatMap_length (l : List ConversationTurn) :
    (l.flatMap (fun c => [renderUserLine c, renderAssistantLine c])).length = 2 * l.length := by
  induction l with
  | nil => simp
  | cons c rest ih =>
    simp only [List.flatMap_cons, List.length_append, List.length_cons, ih]
    simp
    ring

/-- Claim C8: the prompt's history section contains at most the 3 most
recent turns of the newest-first history list, rendered oldest-first within
that window (the loop runs over `reversed(history[:3])`), and each turn's
answer is truncated to its first 200 characters. -/
theorem c8_history_window (conversation_history : List ConversationTurn) :
    history_parts conversation_history
      = ((conversation_history.take 3).reverse).flatMap
          (fun c => [renderUserLine c, renderAssistantLine c])
  ∧ (history_parts conversation_history).length
      = 2 * min 3 conversation_history.length
  ∧ ∀ c : ConversationTurn, (String.mk (c.answer.data.take 200)).length ≤ 200 := by
  refine ⟨by rw [history_parts, appendHistoryParts_eq]; simp, ?_, ?_⟩
  · rw [history_parts, appendHistoryParts_eq]
    simp only [List.nil_append, twoLine_flatMap_length, List.length_reverse, List.length_take]
  · intro c
    show (c.answer.data.take 200).length ≤ 200
    exact List.length_take_le _ _

/-! ### Matched careers heuristic (`src/core/career_engine.py` lines 273-282) -/

/-- Python `needle in hay` prefix test helper. -/
def startsWith : List Char → List Char → Bool
  | [], _ => true
  | _ :: _, [] => false
  | a :: as, b :: bs => a == b && startsWith as bs

/-- Python substring membership `needle in hay` on character lists. -/
def containsSub (needle : List Char) : List Char → Bool
  | [] => needle.isEmpty
  | a :: rest => startsWith needle (a :: rest) || containsSub needle rest

/-- Python `str.lower()` (character-wise, as relevant for the ASCII
needles "career", "job", "role"). -/
def pyLower (s : String) : String := String.mk (s.data.map Char.toLower)

/-- The relevance test of the loop at `src/core/career_engine.py` lines
275-280: `text = chunk['text'].lower()` then
`'career' in text or 'job' in text or 'role' in text`. -/
def isCareerRelevant (text : String) : Bool :=
  containsSub "career".data (pyLower text).data
  || containsSub "job".data (pyLower text).data
  || containsSub "role".data (pyLower text).data

/-- `matched_careers` as computed by `career_guidance_rag`: filenames of
the relevant hits, deduplicated (`list(set(matched_careers))`). -/
def matched_careers (knowledge_chunks : List RetrievedChunk) : List String :=
  ((knowledge_chunks.filter fun c => isCareerRelevant c.text).map RetrievedChunk.filename).dedup

theorem startsWith_iff :
    ∀ (needle hay : List Char), startsWith needle hay = true ↔ ∃ r, hay = needle ++ r := by
  intro needle
  induction needle with
  | nil => intro hay; simp [startsWith]
  | cons a as ih =>
    intro hay
    cases hay with
    | nil =>
      simp [startsWith]
    | cons b bs =>
      rw [startsWith]
      simp only [Bool.and_eq_true, beq_iff_eq, ih bs, List.cons_append, List.cons.injEq]
      constructor
      · rintro ⟨rfl, r, rfl⟩
        exact ⟨r, rfl, rfl⟩
      · rintro ⟨r, rfl, rfl⟩
        exact ⟨rfl, r, rfl⟩

theorem containsSub_iff (needle : List Char) :
    ∀ hay, containsSub needle hay = true ↔ ∃ l r, hay = l ++ needle ++ r := by
  intro hay
  induction hay with
  | nil =>
    simp only [containsSub, List.isEmpty_iff]
    constructor
    · rintro rfl
      exact ⟨[], [], rfl⟩
    · rintro ⟨l, r, h⟩
      rcases List.append_eq_nil.mp (List.append_eq_nil.mp h.symm).1 with ⟨-, h2⟩
      exact h2
  | cons a rest ih =>
    rw [containsSub]
    simp only [Bool.or_eq_true, startsWith_iff, ih]
    constructor
    · rintro (⟨r, h⟩ | ⟨l, r, h⟩)
      · exact ⟨[], r, by simpa using h⟩
      · exact ⟨a :: l, r, by simp [h]⟩
    · rintro ⟨l, r, h⟩
      cases l with
      | nil =>
        exact Or.inl ⟨r, by simpa using h⟩
      | cons x xs =>
        simp only [List.cons_append, List.cons.injEq] at h
        exact Or.inr ⟨xs, r, h.2⟩

/-- Claim C9: `matched_careers` is exactly the distinct set of filenames of
the retrieval hits whose chunk text contains one of the literal substrings
"career", "job", "role", matched case-insensitively (the code lowercases
the text before the substring tests). -/
theorem c9_matched_careers_set (knowledge_chunks : List RetrievedChunk) :
    (matched_careers knowledge_chunks).Nodup
  ∧ ∀ f : String, f ∈ matched_careers knowledge_chunks ↔
      ∃ c, c ∈ knowledge_chunks ∧ c.filename = f ∧
        ((∃ l r, (pyLower c.text).data = l ++ "career".data ++ r)
        ∨ (∃ l r, (pyLower c.text).data = l ++ "job".data ++ r)
        ∨ (∃ l r, (pyLower c.text).data = l ++ "role".data ++ r)) := by
  constructor
  · exact List.nodup_dedup _
  · intro f
    unfold matched_careers
    rw [List.mem_dedup, List.mem_map]
    constructor
    · rintro ⟨c, hc, rfl⟩
      obtain ⟨hmem, hrel⟩ := List.mem_filter.mp hc
      refine ⟨c, hmem, rfl, ?_⟩
      unfold isCareerRelevant at hrel
      simp only [Bool.or_eq_true, containsSub_iff] at hrel
      rcases hrel with (h | h) | h
      · exact Or.inl (by simpa using h)
      · exact Or.inr (Or.inl (by simpa using h))
      · exact Or.inr (Or.inr (by simpa using h))
    · rintro ⟨c, hmem, rfl, hrel⟩
      refine ⟨c, List.mem_filter.mpr ⟨hmem, ?_⟩, rfl⟩
      unfold isCareerRelevant
      simp only [Bool.or_eq_true, containsSub_iff]
      rcases hrel with h | h | h
      · exact Or.inl (Or.inl (by simpa using h))
      · exact Or.inl (Or.inr (by simpa using h))
      · exact Or.inr (by simpa using h)

/-! ### The `/chat/query` endpoint (`src/router/chat.py`) and conversation saving -/

/-- Relational-store failure modes: acquiring the connection happens
outside the `try` block of `save_conversation` and so propagates. -/
inductive DbError where
  | connectionFailure : DbError
deriving DecidableEq

/-- `save_conversation` from `src/core/database.py` (lines 335-356):
`get_conn()` is called before the `try` block, so a connection failure
raises; an INSERT failure is caught, rolled back and reported by returning
`False`; success returns `True`. -/
def save_conversation (connOk insertOk : Bool) : Except DbError Bool :=
  if connOk then (if insertOk then .ok true else .ok false) else .error .connectionFailure

/-- `save_career_recommendation` from `src/core/database.py` (lines
407-433), with the same shape: connection failure raises, INSERT failure is
swallowed into `False`. -/
def save_career_recommendation (connOk insertOk : Bool) : Except DbError Bool :=
  if connOk then (if insertOk then .ok true else .ok false) else .error .connectionFailure

/-- The response model of `/chat/query`. -/
structure ChatQueryResponse where
  response : String
  matched_careers : List String
  confidence_score : ℚ
deriving DecidableEq

/-- An HTTPException surfaced to the caller. -/
structure HttpFailure where
  status : Nat
deriving DecidableEq

/-- `chat_query` from `src/router/chat.py` (lines 44-119): look up the
profile (404 when absent, before any model call), run the RAG pipeline
(one embedding call and one generation call, whose output is `generated`),
save the conversation turn, save a recommendation when careers matched,
and return the response.  Any raised exception after the profile check is
turned into a 500.  The two counters record how many embedding calls and
how many generation calls were made. -/
def chat_query (profile : Option (List (String × String)))
    (knowledge_chunks : List RetrievedChunk) (generated : String)
    (convConnOk convInsertOk recConnOk recInsertOk : Bool) :
    Except HttpFailure ChatQueryResponse × Nat × Nat :=
  match profile with
  | none => (.error ⟨404⟩, 0, 0)
  | some _ =>
    match save_conversation convConnOk convInsertOk with
    | .error _ => (.error ⟨500⟩, 1, 1)
    | .ok _ =>
      match (if (matched_careers knowledge_chunks).isEmpty then Except.ok true
          else save_career_recommendation recConnOk recInsertOk) with
      | .error _ => (.error ⟨500⟩, 1, 1)
      | .ok _ =>
        (.ok ⟨generated, matched_careers knowledge_chunks, confidence_score knowledge_chunks⟩,
          1, 1)

/-- Claim C4: there is a chat-query invocation in which retrieval and
generation succeed and a relational-store failure while saving the
conversation turn (here: `get_conn()` raising inside `save_conversation`)
aborts the whole call with a 500, so the already-generated answer is never
returned to the caller.  (An INSERT-level failure, by contrast, is
swallowed by `save_conversation` returning `False`.)  The `1, 1` effect
counters record that the embedding and generation calls did happen before
the answer was discarded. -/
theorem c4_conversation_save_failure_discards_answer :
    chat_query (some [("skills", "python")])
      [⟨"career opportunities in data science", "doc.pdf", 0, 1⟩]
      "Personalized career advice" false true true true
      = (.error ⟨500⟩, 1, 1) := rfl

/-- Claim C7: a chat query for a user with no stored profile fails with a
404 before any embedding call and any generation call is made (both effect
counters are zero). -/
theorem c7_missing_profile_rejected_before_model_calls
    (knowledge_chunks : List RetrievedChunk) (generated : String)
    (a b c d : Bool) :
    chat_query none knowledge_chunks generated a b c d = (.error ⟨404⟩, 0, 0) := rfl

end CareerBot
